import Mathlib

/-!
Verification of the Advent of Code 2021 day 19 core
(`src/days/day19.rs`): point-cloud registration of scanner beacon
sets.  The Rust code is shallowly embedded below: hash sets and hash
maps become lists (the source never relies on their iteration order
except where noted), `i32`/`usize` become `Int`/`Nat`, and the
in-place merge loop becomes explicit state passing with fuel.
-/

namespace Day19

/-- Embedding of `Point` (a tuple struct of three `i32`s). -/
structure Point where
  x : Int
  y : Int
  z : Int
deriving DecidableEq, Repr

/-- Embedding of `Add<&Point> for &Point`. -/
def Point.add (p q : Point) : Point := ⟨p.x + q.x, p.y + q.y, p.z + q.z⟩

/-- Embedding of `Sub<&Point> for &Point`. -/
def Point.sub (p q : Point) : Point := ⟨p.x - q.x, p.y - q.y, p.z - q.z⟩

instance : Add Point := ⟨Point.add⟩

instance : Sub Point := ⟨Point.sub⟩

/-- The origin `Point((0, 0, 0))` used to seed the global map. -/
def pZero : Point := ⟨0, 0, 0⟩

/-- Embedding of `Point::distance`: the Manhattan distance
`(dx.abs() + dy.abs() + dz.abs()) as usize`. -/
def Point.distance (p q : Point) : Nat :=
  (p.x - q.x).natAbs + (p.y - q.y).natAbs + (p.z - q.z).natAbs

/-- Embedding of `Axis`. -/
inductive Axis where
  | X
  | Y
  | Z
deriving DecidableEq, Repr

/-- Embedding of `Sign`. -/
inductive Sign where
  | Positive
  | Negative
deriving DecidableEq, Repr

/-- Embedding of `Mul<Sign> for Sign`. -/
def Sign.mul (s t : Sign) : Sign :=
  if s = t then .Positive else .Negative

/-- Embedding of `Transformation`: one row of a transformation
matrix, an axis selector plus a sign. -/
structure Xform where
  axis : Axis
  sign : Sign
deriving DecidableEq, Repr

/-- Embedding of `Mul<Sign> for &Transformation` / `MulAssign`. -/
def rowNeg (t : Xform) (s : Sign) : Xform :=
  ⟨t.axis, t.sign.mul s⟩

/-- Coordinate of a point along an axis. -/
def coord (a : Axis) (p : Point) : Int :=
  match a with
  | .X => p.x
  | .Y => p.y
  | .Z => p.z

/-- Embedding of `Mul<&Point> for &Transformation`: the signed
selected coordinate. -/
def rowApply (t : Xform) (p : Point) : Int :=
  match t.sign with
  | .Positive => coord t.axis p
  | .Negative => -(coord t.axis p)

/-- Embedding of `TransformationMatrix`: three rows. -/
structure Matrix3 where
  r0 : Xform
  r1 : Xform
  r2 : Xform
deriving DecidableEq, Repr

/-- Embedding of `Mul<&Point> for &TransformationMatrix`. -/
def matApply (m : Matrix3) (p : Point) : Point :=
  ⟨rowApply m.r0 p, rowApply m.r1 p, rowApply m.r2 p⟩

/-- Embedding of `BeaconOrientationIterator::IDENTITY` indexing:
row `i` of the identity matrix (indices 0, 1, 2 in reachable
states). -/
def identRow (i : Nat) : Xform :=
  match i with
  | 0 => ⟨.X, .Positive⟩
  | 1 => ⟨.Y, .Positive⟩
  | _ => ⟨.Z, .Positive⟩

/-- The identity transformation matrix. -/
def idMatrix : Matrix3 :=
  ⟨⟨.X, .Positive⟩, ⟨.Y, .Positive⟩, ⟨.Z, .Positive⟩⟩

/-- Tail of `BeaconOrientationIterator::advance_index` after the
increment, when the incremented `j` differs from `i`. -/
def advanceIndexStep (i j : Nat) : Nat × Nat :=
  if j + 1 ≥ 3 then (i + 1, 0) else (i, j + 1)

/-- Embedding of `BeaconOrientationIterator::advance_index`.  The
source recursion runs at most once: after `j` is bumped onto `i`, a
second bump cannot equal `i` again, so one unrolling is exact. -/
def advanceIndex (i j : Nat) : Nat × Nat :=
  if j + 1 = i then advanceIndexStep i (j + 1) else advanceIndexStep i j

/-- Embedding of `BeaconOrientationIterator::advance_state`. -/
def advanceState (i j k : Nat) : Nat × Nat × Nat :=
  if k + 1 ≥ 4 then
    match advanceIndex i j with
    | (i', j') => (i', j', 0)
  else (i, j, k + 1)

/-- Embedding of the matrix produced by
`BeaconOrientationIterator::next` in state `(i, j, k)`. -/
def matrixAt (i j k : Nat) : Matrix3 :=
  let first := identRow i
  let second := identRow j
  let third :=
    let ni := (i + 1) % 3
    let nj := (j + 1) % 3
    if ni = j then identRow nj else rowNeg (identRow ni) .Negative
  match k with
  | 0 => ⟨first, second, third⟩
  | 1 => ⟨first, rowNeg second .Negative, rowNeg third .Negative⟩
  | 2 => ⟨rowNeg first .Negative, rowNeg second .Negative, third⟩
  | _ => ⟨rowNeg first .Negative, second, rowNeg third .Negative⟩

/-- Collect the whole iterator starting from a state, with fuel
(the iterator visits at most 24 states before `done`). -/
def genRotList (fuel i j k : Nat) : List Matrix3 :=
  match fuel with
  | 0 => []
  | fuel' + 1 =>
    if i = 3 then []
    else
      match advanceState i j k with
      | (i', j', k') => matrixAt i j k :: genRotList fuel' i' j' k'

/-- The full rotation catalog: `BeaconOrientationIterator::new()`
collected to a list, in iterator order. -/
def rotList : List Matrix3 := genRotList 100 0 1 0

/-- Embedding of `factorial` instantiated at `usize`:
`num::range_inclusive(1, n).product()`. -/
def factorial (n : Nat) : Nat := (List.range' 1 n).prod

/-- Embedding of `combinations` instantiated at `usize`:
`num::range_inclusive(n - r + 1, n).product().div_floor(factorial(r))`. -/
def combinations (n r : Nat) : Nat :=
  (List.range' (n - r + 1) r).prod / factorial r

/-- Embedding of the constant `DESIRED_OVERLAPS` in
`GlobalMap::merge_scanner`. -/
def DESIRED_OVERLAPS : Nat := 12

/-- Embedding of the lazy constant `DISTANCE_OVERLAPS`
(`combinations(DESIRED_OVERLAPS, 2)`). -/
def DISTANCE_OVERLAPS : Nat := combinations DESIRED_OVERLAPS 2

/-- Embedding of `ScannerWithDistancesToBeacons`.  The
`FxHashSet<Point>` of beacons becomes a list; the
`FxHashMap<usize, Vec<Point>>` of distances becomes an association
list in first-insertion key order (the source never relies on hash
iteration order for correctness). -/
structure ScannerWD where
  beacons : List Point
  distances : List (Nat × List Point)
deriving DecidableEq, Repr

/-- All ordered pairs `(l[i], l[j])` with `i < j`, in order:
embedding of `itertools`' `tuple_combinations` over the beacon
iterator. -/
def tupleCombinations {α : Type} : List α → List (α × α)
  | [] => []
  | a :: rest => rest.map (fun b => (a, b)) ++ tupleCombinations rest

/-- One `distances.entry(d).or_insert(Vec::new())` step of
`Scanner::into_distances`: push both endpoints under key `k`. -/
def addEntry : List (Nat × List Point) → Nat → Point → Point → List (Nat × List Point)
  | [], k, a, b => [(k, [a, b])]
  | (k', v) :: rest, k, a, b =>
    if k' = k then (k', v ++ [a, b]) :: rest
    else (k', v) :: addEntry rest k a b

/-- Embedding of `Scanner::into_distances`. -/
def intoDistances (beacons : List Point) : ScannerWD :=
  { beacons := beacons
    distances :=
      (tupleCombinations beacons).foldl
        (fun m p => addEntry m (Point.distance p.1 p.2) p.1 p.2) [] }

/-- Embedding of `GlobalMap`: an association list from resolved
scanner position to its scanner data (`FxHashMap<Point, _>`). -/
abbrev GlobalMap : Type := List (Point × ScannerWD)

/-- `HashMap::insert`: replace the value under an existing key,
otherwise add a new entry. -/
def mapInsert (m : GlobalMap) (k : Point) (v : ScannerWD) : GlobalMap :=
  if (List.any m fun e => decide (e.1 = k)) then
    List.map (fun e => if e.1 = k then (k, v) else e) m
  else m ++ [(k, v)]

/-- Flattened map helper (used by the accessors below). -/
def flatMapL {α β : Type} (f : α → List β) : List α → List β
  | [] => []
  | a :: l => f a ++ flatMapL f l

/-- Embedding of `GlobalMap::beacons` as a finite set: the union of
all stored scanners' beacon sets. -/
def beaconSet (m : GlobalMap) : Finset Point :=
  (flatMapL (fun e => e.2.beacons) m).toFinset

/-- The list of scanner positions (keys of the global map). -/
def positionList (m : GlobalMap) : List Point :=
  List.map Prod.fst m

/-- Embedding of `GlobalMap::scanners` as a finite set: the set of
resolved scanner positions. -/
def positionSet (m : GlobalMap) : Finset Point :=
  (positionList m).toFinset

/-- Lookup in an association list (`HashMap` indexing); total, with
the empty list standing for the out-of-map case the source never
reaches. -/
def lookupD (d : List (Nat × List Point)) (k : Nat) : List Point :=
  match d with
  | [] => []
  | (k', v) :: rest => if k' = k then v else lookupD rest k

/-- Keys of a distance index (`distances.keys()`). -/
def keysOf (d : List (Nat × List Point)) : List Nat :=
  List.map Prod.fst d

/-- Embedding of the distance-key intersection
`known_distances.intersection(&scanned_distances)` inside
`merge_scanner`. -/
def overlapKeys (known scanner : ScannerWD) : List Nat :=
  (keysOf known.distances).filter
    (fun k => decide (k ∈ keysOf scanner.distances))

/-- Cartesian product of two lists in `itertools` order (first list
outer, second inner). -/
def prodL {α β : Type} (l₁ : List α) (l₂ : List β) : List (α × β) :=
  flatMapL (fun a => l₂.map (fun b => (a, b))) l₁

/-- Embedding of `overlapping_distance_to_transformed_beacons`: for
each overlapping distance, the candidate's beacons under that
distance, rotated. -/
def transformedIndex (scanner : ScannerWD) (mat : Matrix3) (ov : List Nat) :
    List (Nat × List Point) :=
  ov.map (fun d => (d, (lookupD scanner.distances d).map (fun b => matApply mat b)))

/-- Embedding of `potential_translations`: differences
`known_beacon - transformed_candidate_beacon` over the per-distance
cartesian products. -/
def potentialTranslations (known scanner : ScannerWD) (mat : Matrix3)
    (ov : List Nat) : List Point :=
  (flatMapL
      (fun d => prodL (lookupD known.distances d)
        (lookupD (transformedIndex scanner mat ov) d)) ov).map
    (fun p => p.1 - p.2)

/-- Embedding of `all_oriented_beacons`: the whole candidate beacon
set rotated and translated, collected back into a set (`dedup`). -/
def orientAll (mat : Matrix3) (delta : Point) (beacons : List Point) : List Point :=
  (beacons.map (fun b => matApply mat b + delta)).dedup

/-- The number of oriented candidate beacons already present in the
known scanner's beacon set (the acceptance count). -/
def overlapCount (knownBeacons oriented : List Point) : Nat :=
  (oriented.filter (fun b => decide (b ∈ knownBeacons))).length

/-- Embedding of the `for delta in potential_translations` loop:
first translation whose oriented beacon set meets the overlap
threshold, together with that oriented set. -/
def tryDeltas (knownBeacons beacons : List Point) (mat : Matrix3) :
    List Point → Option (Point × List Point)
  | [] => none
  | delta :: ds =>
    let all := orientAll mat delta beacons
    if DESIRED_OVERLAPS ≤ overlapCount knownBeacons all then some (delta, all)
    else tryDeltas knownBeacons beacons mat ds

/-- Embedding of the `for transformation_matrix in
BeaconOrientationIterator::new()` loop against one known scanner. -/
def searchRot (known scanner : ScannerWD) (ov : List Nat) :
    List Matrix3 → Option (Point × List Point)
  | [] => none
  | mat :: mats =>
    match tryDeltas known.beacons scanner.beacons mat
        (potentialTranslations known scanner mat ov) with
    | some r => some r
    | none => searchRot known scanner ov mats

/-- Embedding of the `for (_, known_scanner) in &self.scanners` loop
of `GlobalMap::merge_scanner`; `whole` is the map being iterated
(and mutated on success). -/
def mergeLoop (whole : GlobalMap) (scanner : ScannerWD) :
    List (Point × ScannerWD) → GlobalMap × Bool
  | [] => (whole, false)
  | (_, known) :: rest =>
    let ov := overlapKeys known scanner
    if DISTANCE_OVERLAPS ≤ ov.length then
      match searchRot known scanner ov rotList with
      | some (delta, placed) =>
        (mapInsert whole delta (intoDistances placed), true)
      | none => mergeLoop whole scanner rest
    else mergeLoop whole scanner rest

/-- Embedding of `GlobalMap::merge_scanner`: returns the updated map
and the boolean result. -/
def mergeScannerMut (m : GlobalMap) (scanner : ScannerWD) : GlobalMap × Bool :=
  mergeLoop m scanner m

/-- One full pass of the inner `for i in (0..scanners.len()).rev()`
loop of `GlobalMap::from_scanners`: attempt each pending scanner,
highest index first, threading the map; placed scanners are removed.
(The source's `swap_remove` permutes the survivors; their order is
irrelevant to the loop, and this embedding keeps original order.) -/
def passRev (m : GlobalMap) : List ScannerWD → GlobalMap × List ScannerWD
  | [] => (m, [])
  | s :: rest =>
    let mr := passRev m rest
    let ms := mergeScannerMut mr.1 s
    if ms.2 then (ms.1, mr.2) else (ms.1, s :: mr.2)

/-- Result of map construction: the source either returns a map,
panics (empty input), or loops forever (modelled by fuel
exhaustion). -/
inductive BuildResult where
  | panic
  | outOfFuel
  | ok (m : GlobalMap)
deriving DecidableEq

/-- The `while !scanners.is_empty()` loop of
`GlobalMap::from_scanners`, with fuel counting full passes. -/
def loopFuel (fuel : Nat) (m : GlobalMap) (l : List ScannerWD) : BuildResult :=
  match l with
  | [] => .ok m
  | s :: rest =>
    match fuel with
    | 0 => .outOfFuel
    | fuel' + 1 =>
      let ml := passRev m (s :: rest)
      loopFuel fuel' ml.1 ml.2

/-- Embedding of `GlobalMap::from_scanners`: convert every scanner
to its distance index, seed the origin with the first scanner
(`scanners.remove(0)` panics on an empty vector), then run the merge
loop. -/
def fromScanners (fuel : Nat) (scanners : List (List Point)) : BuildResult :=
  match scanners.map intoDistances with
  | [] => .panic
  | first :: rest => loopFuel fuel (mapInsert [] pZero first) rest

/-- Embedding of `solve_b` after parsing: maximum pairwise Manhattan
distance over scanner positions; `none` on the `AocResult` error
path (`max()` of an empty iterator). -/
def solveB (fuel : Nat) (scanners : List (List Point)) :
    Option (Except Unit Nat) :=
  match fromScanners fuel scanners with
  | .panic => none
  | .outOfFuel => none
  | .ok m =>
    match ((tupleCombinations (positionList m)).map
        (fun p => Point.distance p.1 p.2)).max? with
    | none => some (.error ())
    | some v => some (.ok v)

/-! ### Derived operations used to state algebraic properties -/

/-- Row of a matrix selected by an axis (row 0 answers for the `x`
coordinate of an applied matrix, and so on). -/
def coordRow (m : Matrix3) (a : Axis) : Xform :=
  match a with
  | .X => m.r0
  | .Y => m.r1
  | .Z => m.r2

/-- Row of the functional composition: applying `r` after `m2`. -/
def composeRow (r : Xform) (m2 : Matrix3) : Xform :=
  rowNeg (coordRow m2 r.axis) r.sign

/-- Matrix of the functional composition `m1 ∘ m2` (first `m2`,
then `m1`), characterized by `compose_matApply` below. -/
def compose (m1 m2 : Matrix3) : Matrix3 :=
  ⟨composeRow m1.r0 m2, composeRow m1.r1 m2, composeRow m1.r2 m2⟩

/-- Integer row vector denoted by one transformation row. -/
def rowVec (t : Xform) : Int × Int × Int :=
  let v : Int × Int × Int :=
    match t.axis with
    | .X => (1, 0, 0)
    | .Y => (0, 1, 0)
    | .Z => (0, 0, 1)
  match t.sign with
  | .Positive => v
  | .Negative => (-v.1, -v.2.1, -v.2.2)

/-- Determinant of the 3x3 integer matrix denoted by a
transformation matrix. -/
def detM (m : Matrix3) : Int :=
  let a := rowVec m.r0
  let b := rowVec m.r1
  let c := rowVec m.r2
  a.1 * (b.2.1 * c.2.2 - b.2.2 * c.2.1)
    - a.2.1 * (b.1 * c.2.2 - b.2.2 * c.1)
    + a.2.2 * (b.1 * c.2.1 - b.2.1 * c.1)

/-- Negation of a point. -/
def negP (p : Point) : Point := ⟨-p.x, -p.y, -p.z⟩

/-- The three coordinate basis points. -/
def basisPoints : List Point := [⟨1, 0, 0⟩, ⟨0, 1, 0⟩, ⟨0, 0, 1⟩]

/-- The three rows of a matrix select pairwise distinct axes. -/
def axesDistinctB (m : Matrix3) : Bool :=
  decide (m.r0.axis ≠ m.r1.axis) && decide (m.r0.axis ≠ m.r2.axis)
    && decide (m.r1.axis ≠ m.r2.axis)

/-! ### Concrete inputs used for counterexamples and witnesses -/

/-- Twelve collinear beacons at powers of four: all 66 pairwise
Manhattan distances are distinct. -/
def s12 : List Point :=
  [⟨1, 0, 0⟩, ⟨4, 0, 0⟩, ⟨16, 0, 0⟩, ⟨64, 0, 0⟩, ⟨256, 0, 0⟩, ⟨1024, 0, 0⟩,
   ⟨4096, 0, 0⟩, ⟨16384, 0, 0⟩, ⟨65536, 0, 0⟩, ⟨262144, 0, 0⟩,
   ⟨1048576, 0, 0⟩, ⟨4194304, 0, 0⟩]

/-- A nonzero scanner position. -/
def p5 : Point := ⟨5, 0, 0⟩

/-- A map whose only scanner is stored at the nonzero position
`p5`. -/
def exMapC7 : GlobalMap := [(p5, intoDistances s12)]

/-- A translation vector for building a shifted candidate. -/
def v100 : Point := ⟨100000, 0, 0⟩

/-- The twelve beacons of `s12`, each shifted by `v100`. -/
def t12 : List Point := s12.map (fun p => p + v100)

/-- A map whose only scanner is stored at the origin. -/
def exMapOrigin : GlobalMap := [(pZero, intoDistances s12)]

/-- First scanner of the no-shared-beacon pair. -/
def sA : List Point := [⟨0, 0, 0⟩, ⟨1, 0, 0⟩]

/-- Second scanner of the no-shared-beacon pair: zero beacons (and
zero pairwise distances) in common with `sA`. -/
def sB : List Point := [⟨100, 0, 0⟩, ⟨105, 0, 0⟩]

/-- The map state after seeding the origin with `sA`. -/
def exMapC1 : GlobalMap := [(pZero, intoDistances sA)]

/-! ### Theorems -/

theorem add_def (p q : Point) : p + q = ⟨p.x + q.x, p.y + q.y, p.z + q.z⟩ := rfl

theorem sub_def (p q : Point) : p - q = ⟨p.x - q.x, p.y - q.y, p.z - q.z⟩ := rfl

theorem rowApply_composeRow (r : Xform) (m2 : Matrix3) (p : Point) :
    rowApply (composeRow r m2) p = rowApply r (matApply m2 p) := by
  obtain ⟨a, s⟩ := r
  obtain ⟨⟨a0, s0⟩, ⟨a1, s1⟩, ⟨a2, s2⟩⟩ := m2
  cases a <;> cases s <;> cases s0 <;> cases s1 <;> cases s2 <;>
    simp [composeRow, coordRow, rowNeg, Sign.mul, rowApply, matApply, coord]

theorem compose_matApply (m1 m2 : Matrix3) (p : Point) :
    matApply (compose m1 m2) p = matApply m1 (matApply m2 p) := by
  simp [compose, matApply, rowApply_composeRow]

theorem rowDiff_natAbs (r : Xform) (p q : Point) (t : Int) :
    ((rowApply r p + t) - (rowApply r q + t)).natAbs
      = (coord r.axis p - coord r.axis q).natAbs := by
  obtain ⟨a, s⟩ := r
  cases s
  · simp only [rowApply]
    congr 1
    ring
  · simp only [rowApply]
    rw [show -coord a p + t - (-coord a q + t) = -(coord a p - coord a q) by ring,
      Int.natAbs_neg]

theorem dist_inv_of_axesDistinct (m : Matrix3) (h : axesDistinctB m = true)
    (p q t : Point) :
    Point.distance (matApply m p + t) (matApply m q + t) = Point.distance p q := by
  obtain ⟨⟨a0, s0⟩, ⟨a1, s1⟩, ⟨a2, s2⟩⟩ := m
  simp only [axesDistinctB, Bool.and_eq_true, decide_eq_true_eq] at h
  obtain ⟨⟨h01, h02⟩, h12⟩ := h
  have e0 := rowDiff_natAbs ⟨a0, s0⟩ p q t.x
  have e1 := rowDiff_natAbs ⟨a1, s1⟩ p q t.y
  have e2 := rowDiff_natAbs ⟨a2, s2⟩ p q t.z
  simp only [Point.distance, add_def, matApply]
  rw [e0, e1, e2]
  cases a0 <;> cases a1 <;> cases a2 <;>
    simp_all [coord, Point.distance] <;> ring

/-- C9: for the empty input, `GlobalMap::from_scanners` does not
return a map or a failure value: it panics, because
`scanners.remove(0)` is called unconditionally on the empty
vector. -/
theorem C9_empty_input_panics (fuel : Nat) :
    fromScanners fuel [] = .panic := rfl

/-- C8: for an input of exactly one scanner, construction succeeds
for every fuel (the merge loop body is never entered): the map holds
that scanner at the origin with its beacon set unchanged, and the
position set is exactly the origin singleton. -/
theorem C8_single_scanner (fuel : Nat) (s : List Point) :
    fromScanners fuel [s] = .ok [(pZero, intoDistances s)] ∧
    positionSet [(pZero, intoDistances s)] = {pZero} ∧
    beaconSet [(pZero, intoDistances s)] = s.toFinset := by
  refine ⟨?_, ?_, ?_⟩
  · cases fuel <;> rfl
  · simp [positionSet, positionList]
  · simp [beaconSet, flatMapL, intoDistances]

/-- C10: for an input of exactly one scanner, `solve_b` reaches the
error path: map construction succeeds, but the set of unordered
pairs of scanner positions is empty, so `max()` returns `None` and
`into_aoc_result` turns it into an error. -/
theorem C10_single_scanner_solveb_errors (fuel : Nat) (s : List Point) :
    solveB fuel [s] = some (.error ()) := by
  cases fuel <;> rfl

/-- C5: the aligner proceeds from a known scanner to the 24-rotation
search exactly when the distance-key intersection has size at least
`DISTANCE_OVERLAPS`, which the embedded `combinations` computes as
`C(12,2) = 66`; below the threshold the known scanner is skipped. -/
theorem C5_threshold_gate :
    DISTANCE_OVERLAPS = 66 ∧ combinations 12 2 = 66 ∧ DESIRED_OVERLAPS = 12 ∧
    ∀ (whole : GlobalMap) (scanner : ScannerWD) (pos : Point)
      (known : ScannerWD) (rest : List (Point × ScannerWD)),
      mergeLoop whole scanner ((pos, known) :: rest) =
        if 66 ≤ (overlapKeys known scanner).length then
          match searchRot known scanner (overlapKeys known scanner) rotList with
          | some (delta, placed) =>
            (mapInsert whole delta (intoDistances placed), true)
          | none => mergeLoop whole scanner rest
        else mergeLoop whole scanner rest := by
  refine ⟨rfl, rfl, rfl, ?_⟩
  intro whole scanner pos known rest
  rfl

/-- C4: the rotation catalog enumerates exactly 24 pairwise-distinct
matrices; each maps every coordinate axis (basis point) to a signed
coordinate axis and has determinant +1; `compose` realizes
sequential application (`compose_matApply` clause), the catalog is
closed under it, and it contains a two-sided inverse of each
member. -/
theorem C4_rotation_catalog :
    rotList.length = 24 ∧ rotList.Nodup ∧
    (rotList.all (fun m =>
      basisPoints.all (fun e => basisPoints.any (fun f =>
        decide (matApply m e = f ∨ matApply m e = negP f)))) = true) ∧
    (rotList.all (fun m => decide (detM m = 1)) = true) ∧
    (∀ (m1 m2 : Matrix3) (p : Point),
      matApply (compose m1 m2) p = matApply m1 (matApply m2 p)) ∧
    (rotList.all (fun m1 => rotList.all (fun m2 =>
      rotList.any (fun m3 => decide (compose m1 m2 = m3)))) = true) ∧
    (rotList.all (fun m => rotList.any (fun mi =>
      decide (compose m mi = idMatrix) && decide (compose mi m = idMatrix)))
      = true) := by
  refine ⟨by decide, by decide, by decide, by decide,
    compose_matApply, by decide, by decide⟩

/-- C6: the Manhattan distance is invariant under every cataloged
rotation followed by any translation. -/
theorem C6_distance_invariance (R : Matrix3) (hR : R ∈ rotList)
    (p q t : Point) :
    Point.distance (matApply R p + t) (matApply R q + t)
      = Point.distance p q := by
  have hall : rotList.all axesDistinctB = true := by decide
  exact dist_inv_of_axesDistinct R (List.all_eq_true.mp hall R hR) p q t

/-- C2: a candidate translation is accepted exactly when at least
`DESIRED_OVERLAPS = 12` of the points of the entire rotated and
translated candidate beacon set already lie in the known scanner's
beacon set; on acceptance the loop returns that translation together
with the fully transformed beacon set. -/
theorem C2_accept_iff_twelve_overlaps (kb b : List Point) (mat : Matrix3)
    (ds : List Point) :
    (∀ (d : Point) (bs : List Point), tryDeltas kb b mat ds = some (d, bs) →
      d ∈ ds ∧ bs = orientAll mat d b ∧ 12 ≤ overlapCount kb bs) ∧
    (tryDeltas kb b mat ds = none →
      ∀ d ∈ ds, overlapCount kb (orientAll mat d b) < 12) := by
  induction ds with
  | nil =>
    constructor
    · intro d bs h
      simp [tryDeltas] at h
    · intro _ d hd
      simp at hd
  | cons d' ds' ih =>
    by_cases hc : DESIRED_OVERLAPS ≤ overlapCount kb (orientAll mat d' b)
    · constructor
      · intro d bs h
        simp only [tryDeltas, if_pos hc] at h
        obtain ⟨rfl, rfl⟩ := Prod.mk.injEq .. ▸ Option.some.injEq .. ▸ h
        exact ⟨List.mem_cons_self d' ds', rfl, hc⟩
      · intro h
        simp only [tryDeltas, if_pos hc] at h
        exact Option.noConfusion h
    · constructor
      · intro d bs h
        simp only [tryDeltas, if_neg hc] at h
        obtain ⟨hmem, hbs, hcnt⟩ := ih.1 d bs h
        exact ⟨List.mem_cons_of_mem d' hmem, hbs, hcnt⟩
      · intro h d hd
        simp only [tryDeltas, if_neg hc] at h
        rcases List.mem_cons.mp hd with rfl | hd'
        · exact Nat.lt_of_not_le hc
        · exact ih.2 h d hd'

/-- Witness for C2: with twelve known beacons, the identity rotation
and the zero translation are accepted and return the transformed
set. -/
theorem C2_witness :
    pZero ∈ [pZero] ∧ s12 = orientAll idMatrix pZero s12 ∧
      12 ≤ overlapCount s12 s12 :=
  (C2_accept_iff_twelve_overlaps s12 s12 idMatrix [pZero]).1 pZero s12 (by decide)

theorem mergeLoop_effect (whole : GlobalMap) (sc : ScannerWD)
    (l : List (Point × ScannerWD)) :
    ((mergeLoop whole sc l).2 = false → (mergeLoop whole sc l).1 = whole) ∧
    ((mergeLoop whole sc l).2 = true →
      ∃ (delta : Point) (placed : List Point),
        mergeLoop whole sc l = (mapInsert whole delta (intoDistances placed), true)) := by
  induction l with
  | nil => exact ⟨fun _ => rfl, fun h => absurd h (by simp [mergeLoop])⟩
  | cons e rest ih =>
    obtain ⟨pos, known⟩ := e
    by_cases hc : DISTANCE_OVERLAPS ≤ (overlapKeys known sc).length
    · cases hs : searchRot known sc (overlapKeys known sc) rotList with
      | none =>
        constructor
        · intro h
          simp only [mergeLoop, if_pos hc, hs] at h ⊢
          exact ih.1 h
        · intro h
          simp only [mergeLoop, if_pos hc, hs] at h ⊢
          exact ih.2 h
      | some r =>
        obtain ⟨delta, placed⟩ := r
        constructor
        · intro h
          simp only [mergeLoop, if_pos hc, hs] at h
          exact Bool.noConfusion h
        · intro _
          refine ⟨delta, placed, ?_⟩
          simp only [mergeLoop, if_pos hc, hs]
    · constructor
      · intro h
        simp only [mergeLoop, if_neg hc] at h ⊢
        exact ih.1 h
      · intro h
        simp only [mergeLoop, if_neg hc] at h ⊢
        exact ih.2 h

/-- C3 (amended): attempting to align a candidate scanner leaves the
map unchanged when no placement is found; when a placement is found
the call is not side-effect free: the found scanner is inserted into
the map before `true` is returned. -/
theorem C3_query_effects (m : GlobalMap) (sc : ScannerWD) :
    ((mergeScannerMut m sc).2 = false → (mergeScannerMut m sc).1 = m) ∧
    ((mergeScannerMut m sc).2 = true →
      ∃ (delta : Point) (placed : List Point),
        mergeScannerMut m sc = (mapInsert m delta (intoDistances placed), true)) :=
  mergeLoop_effect m sc m

/-- Counterexample for C3 as stated: a successful alignment query
(the candidate is `s12` shifted by `v100` against the map holding
`s12` at the origin) changes the map's position set. -/
theorem C3_counterexample_success_mutates :
    (mergeScannerMut exMapOrigin (intoDistances t12)).2 = true ∧
    positionSet (mergeScannerMut exMapOrigin (intoDistances t12)).1
      ≠ positionSet exMapOrigin := by decide

/-- Witness for C3: a failing alignment query (`sB` has no distance
keys in common with `sA`) leaves the map unchanged. -/
theorem C3_witness :
    (mergeScannerMut exMapC1 (intoDistances sB)).1 = exMapC1 :=
  (C3_query_effects exMapC1 (intoDistances sB)).1 (by decide)

/-- C1 (amended): when a full pass over the pending scanners places
none, `from_scanners` makes no progress and never terminates — for
every fuel bound the loop is still running; the source has no
"no alignment possible" failure path. -/
theorem C1_no_progress_diverges (fuel : Nat) (m : GlobalMap)
    (l : List ScannerWD) (hne : l ≠ []) (hfix : passRev m l = (m, l)) :
    loopFuel fuel m l = .outOfFuel := by
  induction fuel with
  | zero =>
    cases l with
    | nil => exact absurd rfl hne
    | cons s rest => rfl
  | succ n ih =>
    cases l with
    | nil => exact absurd rfl hne
    | cons s rest =>
      simpa only [loopFuel, hfix] using ih

/-- Counterexample for C1 as stated: on the 2-scanner input with
zero shared beacons, the first pass places nothing and leaves the
state fixed, and even after 100 passes the loop has not terminated
with any result. -/
theorem C1_counterexample_loops_forever :
    fromScanners 100 [sA, sB] = .outOfFuel ∧
    passRev exMapC1 [intoDistances sB] = (exMapC1, [intoDistances sB]) := by
  decide

/-- Witness for C1's amended theorem at the concrete stuck state. -/
theorem C1_witness :
    ([intoDistances sB] ≠ ([] : List ScannerWD)) ∧
    loopFuel 3 exMapC1 [intoDistances sB] = .outOfFuel :=
  ⟨by decide,
    C1_no_progress_diverges 3 exMapC1 [intoDistances sB] (by decide) (by decide)⟩

theorem matApply_id (p : Point) : matApply idMatrix p = p := rfl

theorem id_orient_fix (b : Point) : matApply idMatrix b + pZero = b := by
  cases b
  simp [matApply, idMatrix, rowApply, coord, pZero, add_def]

theorem point_sub_self (p : Point) : p - p = pZero := by
  cases p
  simp [sub_def, pZero]

theorem orientAll_id_zero (S : List Point) :
    orientAll idMatrix pZero S = S.dedup := by
  simp [orientAll, id_orient_fix]

theorem overlapCount_dedup_self (S : List Point) :
    overlapCount S S.dedup = S.dedup.length := by
  have hf : S.dedup.filter (fun b => decide (b ∈ S)) = S.dedup :=
    List.filter_eq_self.mpr (fun a ha => by simpa using List.mem_dedup.mp ha)
  simp [overlapCount, hf]

theorem tryDeltas_head_accept (kb b : List Point) (mat : Matrix3) (d : Point)
    (ds : List Point)
    (h : DESIRED_OVERLAPS ≤ overlapCount kb (orientAll mat d b)) :
    tryDeltas kb b mat (d :: ds) = some (d, orientAll mat d b) := by
  simp [tryDeltas, h]

theorem addEntry_values_ne_nil (k : Nat) (a b : Point)
    (m : List (Nat × List Point)) (hm : ∀ e ∈ m, e.2 ≠ []) :
    ∀ e ∈ addEntry m k a b, e.2 ≠ [] := by
  induction m with
  | nil =>
    intro e he
    simp only [addEntry, List.mem_singleton] at he
    simp [he]
  | cons kv rest ih =>
    obtain ⟨k', v⟩ := kv
    intro e he
    by_cases hk : k' = k
    · simp only [addEntry, if_pos hk] at he
      rcases List.mem_cons.mp he with rfl | he'
      · simp
      · exact hm e (List.mem_cons_of_mem _ he')
    · simp only [addEntry, if_neg hk] at he
      rcases List.mem_cons.mp he with rfl | he'
      · exact hm (k', v) (List.mem_cons_self _ _)
      · exact ih (fun e' he'' => hm e' (List.mem_cons_of_mem _ he'')) e he'

theorem intoDistances_values_ne_nil (S : List Point) :
    ∀ e ∈ (intoDistances S).distances, e.2 ≠ [] := by
  have haux : ∀ (l : List (Point × Point)) (m : List (Nat × List Point)),
      (∀ e ∈ m, e.2 ≠ []) →
      ∀ e ∈ l.foldl
        (fun m p => addEntry m (Point.distance p.1 p.2) p.1 p.2) m, e.2 ≠ [] := by
    intro l
    induction l with
    | nil =>
      intro m hm
      simpa using hm
    | cons p l ih =>
      intro m hm
      simp only [List.foldl_cons]
      exact ih _ (addEntry_values_ne_nil _ _ _ m hm)
  exact haux _ [] (by simp)

/-- C7 (amended): re-running alignment of an already-placed scanner
re-inserts it at the translation the search finds.  For a scanner
stored at the origin as the map's only entry (with at least 66
distance keys and 12 distinct beacons, as any placed scanner has),
that translation is `(0,0,0)` again: the identity rotation and the
zero translation are the first accepted candidate, the entry is
overwritten in place, and the map's beacon and position sets are
unchanged. -/
theorem C7_realign_at_origin (S : List Point)
    (h66 : DISTANCE_OVERLAPS ≤ (intoDistances S).distances.length)
    (h12 : DESIRED_OVERLAPS ≤ S.dedup.length) :
    mergeScannerMut [(pZero, intoDistances S)] (intoDistances S)
      = ([(pZero, intoDistances S.dedup)], true) ∧
    positionSet (mergeScannerMut [(pZero, intoDistances S)] (intoDistances S)).1
      = positionSet [(pZero, intoDistances S)] ∧
    beaconSet (mergeScannerMut [(pZero, intoDistances S)] (intoDistances S)).1
      = beaconSet [(pZero, intoDistances S)] := by
  have hOV : overlapKeys (intoDistances S) (intoDistances S)
      = keysOf (intoDistances S).distances := by
    unfold overlapKeys
    exact List.filter_eq_self.mpr (fun a ha => by simpa using ha)
  have hlen : DISTANCE_OVERLAPS
      ≤ (overlapKeys (intoDistances S) (intoDistances S)).length := by
    rw [hOV]
    simpa [keysOf] using h66
  -- the head of the candidate translation list is the zero vector
  have hPT : ∃ rest, potentialTranslations (intoDistances S) (intoDistances S)
      idMatrix (keysOf (intoDistances S).distances) = pZero :: rest := by
    cases hD : (intoDistances S).distances with
    | nil =>
      rw [hD] at h66
      exact absurd h66 (by decide)
    | cons e drest =>
      obtain ⟨k0, v0⟩ := e
      have hv0 : v0 ≠ [] :=
        intoDistances_values_ne_nil S (k0, v0)
          (by rw [hD]; exact List.mem_cons_self _ _)
      cases hv : v0 with
      | nil => exact absurd hv hv0
      | cons a v0' =>
        subst hv
        have hne : potentialTranslations (intoDistances S) (intoDistances S)
            idMatrix (keysOf (intoDistances S).distances) ≠ [] := by
          simp [potentialTranslations, hD, keysOf, flatMapL, transformedIndex,
            lookupD, prodL]
        have hhd : (potentialTranslations (intoDistances S) (intoDistances S)
            idMatrix (keysOf (intoDistances S).distances)).head? = some pZero := by
          simp [potentialTranslations, hD, keysOf, flatMapL, transformedIndex,
            lookupD, prodL, matApply_id, point_sub_self]
        cases hPT' : potentialTranslations (intoDistances S) (intoDistances S)
            idMatrix (keysOf (intoDistances S).distances) with
        | nil => exact absurd hPT' hne
        | cons d rest =>
          rw [hPT'] at hhd
          simp only [List.head?_cons, Option.some.injEq] at hhd
          refine ⟨rest, ?_⟩
          rw [← hD, hPT', hhd]
  obtain ⟨rest, hPT⟩ := hPT
  -- the identity rotation accepts the zero translation
  have hoverlap : DESIRED_OVERLAPS
      ≤ overlapCount (intoDistances S).beacons
        (orientAll idMatrix pZero (intoDistances S).beacons) := by
    show DESIRED_OVERLAPS ≤ overlapCount S (orientAll idMatrix pZero S)
    rw [orientAll_id_zero, overlapCount_dedup_self]
    exact h12
  have hTD : tryDeltas (intoDistances S).beacons (intoDistances S).beacons
      idMatrix (potentialTranslations (intoDistances S) (intoDistances S)
        idMatrix (keysOf (intoDistances S).distances))
      = some (pZero, S.dedup) := by
    rw [hPT]
    rw [tryDeltas_head_accept _ _ _ _ _ hoverlap]
    show some (pZero, orientAll idMatrix pZero S) = _
    rw [orientAll_id_zero]
  have hSR : searchRot (intoDistances S) (intoDistances S)
      (keysOf (intoDistances S).distances) rotList = some (pZero, S.dedup) := by
    obtain ⟨tl, htl⟩ : ∃ tl, rotList = idMatrix :: tl := ⟨rotList.tail, by decide⟩
    rw [htl]
    show (match tryDeltas (intoDistances S).beacons (intoDistances S).beacons
        idMatrix (potentialTranslations (intoDistances S) (intoDistances S)
          idMatrix (keysOf (intoDistances S).distances)) with
      | some r => some r
      | none => searchRot (intoDistances S) (intoDistances S)
          (keysOf (intoDistances S).distances) tl) = some (pZero, S.dedup)
    rw [hTD]
  have hmain : mergeScannerMut [(pZero, intoDistances S)] (intoDistances S)
      = ([(pZero, intoDistances S.dedup)], true) := by
    show (if DISTANCE_OVERLAPS
        ≤ (overlapKeys (intoDistances S) (intoDistances S)).length then
      match searchRot (intoDistances S) (intoDistances S)
          (overlapKeys (intoDistances S) (intoDistances S)) rotList with
      | some (delta, placed) =>
        (mapInsert [(pZero, intoDistances S)] delta (intoDistances placed), true)
      | none => mergeLoop [(pZero, intoDistances S)] (intoDistances S) []
      else mergeLoop [(pZero, intoDistances S)] (intoDistances S) [])
      = ([(pZero, intoDistances S.dedup)], true)
    rw [if_pos hlen, hOV, hSR]
    rfl
  refine ⟨hmain, ?_, ?_⟩
  · rw [hmain]
    simp [positionSet, positionList]
  · rw [hmain]
    show (S.dedup ++ []).toFinset = (S ++ []).toFinset
    ext x
    simp [List.mem_dedup]

/-- Counterexample for C7 as stated: re-running alignment of a
scanner stored at the nonzero position `p5` succeeds and inserts a
second entry at the origin, changing the map's position set. -/
theorem C7_counterexample_nonzero_position :
    (mergeScannerMut exMapC7 (intoDistances s12)).2 = true ∧
    positionSet (mergeScannerMut exMapC7 (intoDistances s12)).1
      ≠ positionSet exMapC7 := by decide

/-- Witness for C7 at the concrete 12-beacon scanner `s12`. -/
theorem C7_witness :
    mergeScannerMut [(pZero, intoDistances s12)] (intoDistances s12)
      = ([(pZero, intoDistances s12.dedup)], true) :=
  (C7_realign_at_origin s12 (by decide) (by decide)).1

/-- Witness for C6 at the identity rotation and concrete points. -/
theorem C6_witness :
    idMatrix ∈ rotList ∧
    Point.distance (matApply idMatrix ⟨1, 2, 3⟩ + ⟨10, 20, 30⟩)
        (matApply idMatrix ⟨4, 5, 6⟩ + ⟨10, 20, 30⟩)
      = Point.distance ⟨1, 2, 3⟩ ⟨4, 5, 6⟩ :=
  ⟨by decide,
    C6_distance_invariance idMatrix (by decide) ⟨1, 2, 3⟩ ⟨4, 5, 6⟩ ⟨10, 20, 30⟩⟩

end Day19
